import Mathlib

/-!
Verification of the FKPolyTools connectivity core against its specification.

This file shallowly embeds the parts of the repository that the claims
concern:

* `ChainMonitor` — the dual-mode (push/poll) blockchain event monitor
  (`src/clients/chain-monitor.js`, shipped as `data-api.d.ts` in this
  snapshot): connection state machine, event pipeline with the
  minimum-transfer-value filter, historical backfill, the reconnect
  policy, and the pull-based event stream's queue/parked-reader
  mechanics.
* `Realtime` — the realtime service's subscription handler closures and
  the YES/NO pairing mode (`src/services/realtime-service.js`).
* `Wallet` — the smart-score arithmetic of the wallet service
  (`WalletService.calculateSmartScore` / `getWalletProfile`).

JavaScript numbers are modelled as `ℚ` (the claims hold for every finite
value, independent of floating-point rounding), decimal-string big
integers (`ethers.BigNumber` token amounts) as `ℕ`, and `Date` values as
explicit `now` parameters.  Fallible operations return `Except`/`Option`.
-/

namespace ChainMonitor

/-- Connection mode, as held in `currentMode` / `stats.mode`:
`'disconnected' | 'websocket' | 'polling'`. -/
inductive Mode where
  | disconnected
  | websocket
  | polling
deriving DecidableEq, Repr

/-- Monitor configuration after constructor defaulting
(`minTransferValue` is a decimal string in the source, modelled as the
natural number it denotes; default `'0'`). -/
structure Config where
  wsEnabled : Bool
  pollingIntervalMs : Nat
  minTransferValue : Nat
  autoReconnect : Bool
  reconnectDelayMs : Nat
  maxReconnectAttempts : Nat
deriving DecidableEq, Repr

/-- The constructor's configuration defaults: `wsEnabled ?? true`,
`pollingIntervalMs || 3000`, `minTransferValue || '0'`,
`autoReconnect ?? true`, `reconnectDelayMs || 5000`,
`maxReconnectAttempts || 10`. -/
def defaultConfig : Config :=
  { wsEnabled := true
    pollingIntervalMs := 3000
    minTransferValue := 0
    autoReconnect := true
    reconnectDelayMs := 5000
    maxReconnectAttempts := 10 }

/-- A normalized transfer event (`TransferEvent`): `amount` and `tokenId`
are decimal-string big integers in the source, modelled as `ℕ`. -/
structure TransferEvent where
  txHash : String
  sender : String
  receiver : String
  tokenId : Nat
  amount : Nat
  blockNumber : Nat
  timestamp : Nat
  isBatch : Bool
  operator : String
deriving DecidableEq, Repr

/-- The `stats` record (`ChainMonitorStats`).  `startedAt` / `lastEventAt`
are wall-clock instants, modelled as optional naturals. -/
structure Stats where
  mode : Mode
  connected : Bool
  eventsObserved : Nat
  reconnectCount : Nat
  currentBlock : Nat
  startedAt : Option Nat
  lastEventAt : Option Nat
deriving DecidableEq, Repr

/-- The monitor's mutable fields.  Handles held through `ethers`
(`httpProvider`, `wsProvider`, the two contract objects, the polling
timer) are modelled by whether they are currently set (non-`null`). -/
structure MonitorState where
  isRunning : Bool
  currentMode : Mode
  httpProvider : Bool
  wsProvider : Bool
  ctfContract : Bool
  negRiskContract : Bool
  pollingTimer : Bool
  lastScannedBlock : Nat
  reconnectAttempts : Nat
  stats : Stats
deriving DecidableEq, Repr

/-- Field initializers of `ChainMonitorClient` before `connect()`. -/
def initialState : MonitorState :=
  { isRunning := false
    currentMode := .disconnected
    httpProvider := false
    wsProvider := false
    ctfContract := false
    negRiskContract := false
    pollingTimer := false
    lastScannedBlock := 0
    reconnectAttempts := 0
    stats :=
      { mode := .disconnected
        connected := false
        eventsObserved := 0
        reconnectCount := 0
        currentBlock := 0
        startedAt := none
        lastEventAt := none } }

/-- Source `startPolling()`: no-op if a polling timer is already installed;
otherwise switches to polling mode, marks the monitor connected, and
installs the interval timer. -/
def startPolling (s : MonitorState) : MonitorState :=
  if s.pollingTimer then s
  else
    { s with
      currentMode := .polling
      pollingTimer := true
      stats := { s.stats with mode := .polling, connected := true } }

/-- The state updates of a successful `connectWebSocket()`: install the
WebSocket provider and the two contract subscriptions, switch to
websocket mode, mark connected, and reset the reconnect-attempt counter. -/
def connectWebSocketOk (s : MonitorState) : MonitorState :=
  { s with
    wsProvider := true
    ctfContract := true
    negRiskContract := true
    currentMode := .websocket
    reconnectAttempts := 0
    stats := { s.stats with mode := .websocket, connected := true } }

/-- Source `connect()`: no-op when already running; otherwise installs the HTTP
provider, records the current block height (`blockNum`, the value
returned by `getBlockNumber()`) as the polling cursor, then attempts the
WebSocket connection when `wsEnabled`.  `wsSuccess` is the outcome of
that attempt; on failure the exception is caught and the monitor falls
back to `startPolling()` (so `connect` is total: it never rethrows). -/
def connect (cfg : Config) (now blockNum : Nat) (wsSuccess : Bool)
    (s : MonitorState) : MonitorState :=
  if s.isRunning then s
  else
    let s1 : MonitorState :=
      { s with
        isRunning := true
        httpProvider := true
        lastScannedBlock := blockNum
        stats := { s.stats with startedAt := some now, currentBlock := blockNum } }
    if cfg.wsEnabled then
      if wsSuccess then connectWebSocketOk s1 else startPolling s1
    else startPolling s1

/-- Source `disconnect()`: clear the running flag, stop the polling timer, tear
down the WebSocket provider, release both contract handles, and set the
mode/stats to `disconnected`.  Note the HTTP provider is *not* cleared. -/
def disconnect (s : MonitorState) : MonitorState :=
  { s with
    isRunning := false
    pollingTimer := false
    wsProvider := false
    ctfContract := false
    negRiskContract := false
    currentMode := .disconnected
    stats := { s.stats with mode := .disconnected, connected := false } }

/-- Accessor `isConnected()`. -/
def isConnected (s : MonitorState) : Bool :=
  s.stats.connected

/-- Accessor `getMode()`. -/
def getMode (s : MonitorState) : Mode :=
  s.currentMode

/-- Source `processEvent(event)`: drop the event when a positive minimum-value
filter is configured and the event's amount is strictly below it
(`minValue.gt(0) && BigNumber.from(event.amount).lt(minValue)`), compared
as arbitrary-precision integers; otherwise update the stats counters and
emit the event (`some` = the event is emitted to listeners and stream
readers, `none` = it is filtered out). -/
def processEvent (cfg : Config) (now : Nat) (st : Stats)
    (e : TransferEvent) : Option (Stats × TransferEvent) :=
  if 0 < cfg.minTransferValue ∧ e.amount < cfg.minTransferValue then none
  else
    some
      ({ st with
          eventsObserved := st.eventsObserved + 1
          lastEventAt := some now
          currentBlock := e.blockNumber }, e)

/-- Source `handleDisconnect()`: ignore when not running; otherwise mark
disconnected, tear down the WebSocket provider and contract handles when
present, and either schedule a reconnect attempt (auto-reconnect on and
budget not exhausted — the attempt itself is the separate
`InternalEvent.reconnectTimeout` step) or, when the budget is exhausted
while in websocket mode, fall back to polling. -/
def handleDisconnect (cfg : Config) (s : MonitorState) : MonitorState :=
  if ¬ s.isRunning then s
  else
    let s1 : MonitorState :=
      { s with stats := { s.stats with connected := false } }
    let s2 : MonitorState :=
      if s1.wsProvider then
        { s1 with wsProvider := false, ctfContract := false, negRiskContract := false }
      else s1
    if cfg.autoReconnect ∧ s2.reconnectAttempts < cfg.maxReconnectAttempts then
      { s2 with
        reconnectAttempts := s2.reconnectAttempts + 1
        stats := { s2.stats with reconnectCount := s2.stats.reconnectCount + 1 } }
    else if s2.currentMode = .websocket then startPolling s2
    else s2

/-! ### Historical backfill -/

/-- Contract address constants. -/
def CTF_EXCHANGE : String := "0x4bFb41d5B3570DeFd03C39a9A4D8dE6Bd8B8982E"

def NEG_RISK_CTF_EXCHANGE : String := "0xC5d563A36AE78145C45a50134d48A1215220f80a"

def CTF_CONTRACT : String := "0x4D97DCd97eC945f40cF65F87097ACe5EA0476045"

def NEG_RISK_ADAPTER : String := "0xd91E80cF2E7be2e162c6513ceD06f1dD0dA35296"

/-- Decoded argument tuple of a `TransferSingle` log:
`(operator, from, to, id, value)`. -/
structure LogArgs where
  operator : String
  sender : String
  receiver : String
  tokenId : Nat
  amount : Nat
deriving DecidableEq, Repr

/-- An on-chain log as returned by the provider; `args` is `none` when
the log could not be decoded (`log.args` undefined). -/
structure Log where
  address : String
  transactionHash : String
  blockNumber : Nat
  args : Option LogArgs
deriving DecidableEq, Repr

/-- The observable chain: the full list of `TransferSingle` logs the node
holds, in chain order. -/
abbrev Chain := List Log

/-- Query `contract.queryFilter(filter, fromBlock, toBlock)` for a contract at
`addr`: the node returns exactly that contract's logs with block number
in the inclusive range. -/
def queryFilter (addr : String) (chain : Chain) (fromBlock toBlock : Nat) :
    List Log :=
  chain.filter fun log =>
    log.address = addr ∧ fromBlock ≤ log.blockNumber ∧ log.blockNumber ≤ toBlock

/-- Source `parseTransferLog(log, isBatch)`: `null` when the log has no decoded
args, otherwise a `TransferEvent` with `timestamp` left as `0`. -/
def parseTransferLog (log : Log) (isBatch : Bool) : Option TransferEvent :=
  match log.args with
  | none => none
  | some args =>
      some
        { txHash := log.transactionHash
          sender := args.sender
          receiver := args.receiver
          tokenId := args.tokenId
          amount := args.amount
          blockNumber := log.blockNumber
          timestamp := 0
          isBatch := isBatch
          operator := args.operator }

/-- The comparator `(a, b) => a.blockNumber - b.blockNumber`: `a` sorts
no later than `b` when its block number is no larger. -/
def blockLE (a b : TransferEvent) : Prop :=
  a.blockNumber ≤ b.blockNumber

instance : DecidableRel blockLE := fun a b =>
  inferInstanceAs (Decidable (a.blockNumber ≤ b.blockNumber))

instance : IsTotal TransferEvent blockLE :=
  ⟨fun a b => Nat.le_total a.blockNumber b.blockNumber⟩

instance : IsTrans TransferEvent blockLE :=
  ⟨fun _ _ _ => Nat.le_trans⟩

/-- Sort `events.sort((a, b) => a.blockNumber - b.blockNumber)`: a stable sort
ascending by block number. -/
def sortByBlockNumber (events : List TransferEvent) : List TransferEvent :=
  events.insertionSort blockLE

/-- Source `getHistoricalTransfers(fromBlock, toBlock)`: throws `'Not connected'`
when the HTTP provider was never initialized; otherwise queries the
`TransferSingle` logs of the CTF Exchange and the NegRisk Exchange for
the inclusive block range, parses them (dropping undecodable logs), and
returns them sorted by ascending block number. -/
def getHistoricalTransfers (s : MonitorState) (chain : Chain)
    (fromBlock toBlock : Nat) : Except String (List TransferEvent) :=
  if ¬ s.httpProvider then .error "Not connected"
  else
    .ok (sortByBlockNumber
      ((queryFilter CTF_EXCHANGE chain fromBlock toBlock).filterMap
          (parseTransferLog · false) ++
        (queryFilter NEG_RISK_CTF_EXCHANGE chain fromBlock toBlock).filterMap
          (parseTransferLog · false)))

/-- Source `pollNewBlocks()`: a single poll tick.  When the monitor is running
and holds an HTTP provider and the chain height advanced past the cursor,
fetch the new inclusive range, feed every event through `processEvent`,
and advance the cursor.  (A query failure only emits an `error` event and
changes no state, which coincides with the no-advance branch here.) -/
def pollNewBlocks (cfg : Config) (chain : Chain) (now currentBlock : Nat)
    (s : MonitorState) : MonitorState :=
  if ¬ s.httpProvider ∨ ¬ s.isRunning then s
  else if s.lastScannedBlock < currentBlock then
    match getHistoricalTransfers s chain (s.lastScannedBlock + 1) currentBlock with
    | .error _ => s
    | .ok events =>
        let stats' := events.foldl
          (fun st e =>
            match processEvent cfg now st e with
            | none => st
            | some (st', _) => st') s.stats
        { s with
          lastScannedBlock := currentBlock
          stats := { stats' with currentBlock := currentBlock } }
  else s

/-- A sample chain for concrete evaluation: two decodable exchange logs
inside blocks 5..10 and one outside. -/
def sampleChain : Chain :=
  [{ address := CTF_EXCHANGE, transactionHash := "0x1", blockNumber := 8,
     args := some { operator := "0xo1", sender := "0xa1", receiver := "0xb1",
                    tokenId := 1, amount := 10 } },
   { address := NEG_RISK_CTF_EXCHANGE, transactionHash := "0x2", blockNumber := 6,
     args := some { operator := "0xo2", sender := "0xa2", receiver := "0xb2",
                    tokenId := 2, amount := 20 } },
   { address := CTF_EXCHANGE, transactionHash := "0x3", blockNumber := 20,
     args := some { operator := "0xo3", sender := "0xa3", receiver := "0xb3",
                    tokenId := 3, amount := 30 } }]

/-- A monitor state whose HTTP provider is initialized. -/
def sampleConnectedState : MonitorState :=
  { initialState with httpProvider := true }

/-- The events `getHistoricalTransfers` returns on `sampleChain` for the
inclusive range 5..10: the block-6 event then the block-8 event. -/
def sampleEvents : List TransferEvent :=
  [{ txHash := "0x2", sender := "0xa2", receiver := "0xb2", tokenId := 2,
     amount := 20, blockNumber := 6, timestamp := 0, isBatch := false,
     operator := "0xo2" },
   { txHash := "0x1", sender := "0xa1", receiver := "0xb1", tokenId := 1,
     amount := 10, blockNumber := 8, timestamp := 0, isBatch := false,
     operator := "0xo1" }]

/-- The monitor's internal (non-`disconnect`) transitions: a WebSocket
`close` event, the delayed reconnect attempt scheduled by
`handleDisconnect` (with its outcome), and a polling-interval tick. -/
inductive InternalEvent where
  | wsClosed
  | reconnectTimeout (wsSuccess : Bool)
  | pollTick (currentBlock : Nat)
deriving DecidableEq, Repr

/-- One internal step of the monitor's state machine. -/
def internalStep (cfg : Config) (chain : Chain) (now : Nat) :
    InternalEvent → MonitorState → MonitorState
  | .wsClosed, s => handleDisconnect cfg s
  | .reconnectTimeout ok, s =>
      if s.isRunning then
        if ok then connectWebSocketOk s else startPolling s
      else s
  | .pollTick currentBlock, s => pollNewBlocks cfg chain now currentBlock s

/-! ### The pull-based stream (`subscribeAllTransfers`)

`subscribeAllTransfers()` is an async generator holding an `eventQueue`
and at most one pending `resolveNext`; the `transfer` handler resolves a
waiting reader directly when one is parked and enqueues the event
otherwise, and the async-generator protocol serializes concurrent
`next()` calls in FIFO order (a `next()` issued while the generator body
is suspended waits its turn).  The state below is exactly that machine:
`eventQueue` is the generator's queue, `parked` the FIFO queue of reader
requests awaiting an event, and `deliveries` the log of which reader
received which event. -/

/-- The stream's state plus the delivery log. -/
structure StreamState where
  eventQueue : List TransferEvent
  parked : List Nat
  deliveries : List (Nat × TransferEvent)
deriving DecidableEq, Repr

/-- Initial stream state: empty queue, no parked reader. -/
def streamInit : StreamState :=
  { eventQueue := [], parked := [], deliveries := [] }

/-- An interleaving step: either a transfer event arrives from the
pipeline (`emit('transfer', e)`) or a reader (identified by a number)
requests the next element of the iterator. -/
inductive StreamAction where
  | arrive (e : TransferEvent)
  | request (reader : Nat)
deriving DecidableEq, Repr

/-- One transition: an arriving event is handed to the longest-waiting
parked reader if any, else enqueued; a request is served from the queue
head if any, else parked. -/
def streamStep (st : StreamState) : StreamAction → StreamState
  | .arrive e =>
      match st.parked with
      | [] => { st with eventQueue := st.eventQueue ++ [e] }
      | r :: rs => { st with parked := rs, deliveries := st.deliveries ++ [(r, e)] }
  | .request r =>
      match st.eventQueue with
      | [] => { st with parked := st.parked ++ [r] }
      | e :: es =>
          { st with eventQueue := es, deliveries := st.deliveries ++ [(r, e)] }

/-- Run an arbitrary interleaving of arrivals and reader requests. -/
def streamRun (acts : List StreamAction) : StreamState :=
  acts.foldl streamStep streamInit

/-- The transfer events of an interleaving, in arrival order. -/
def streamArrivals : List StreamAction → List TransferEvent
  | [] => []
  | .arrive e :: acts => e :: streamArrivals acts
  | .request _ :: acts => streamArrivals acts

/-- The reader requests of an interleaving, in request order. -/
def streamRequests : List StreamAction → List Nat
  | [] => []
  | .arrive _ :: acts => streamRequests acts
  | .request r :: acts => r :: streamRequests acts

end ChainMonitor

namespace Realtime

/-- A price frame, demultiplexed by asset id (`price` models the
JavaScript number as an exact rational). -/
structure PriceUpdate where
  assetId : String
  price : ℚ
deriving DecidableEq, Repr

/-- An orderbook frame. -/
structure BookUpdate where
  assetId : String
deriving DecidableEq, Repr

/-- A last-trade frame. -/
structure LastTrade where
  assetId : String
deriving DecidableEq, Repr

/-- The `priceHandler` closure registered by `subscribeMarkets(assetIds,
handlers)`: forwards the update to the subscription's `onPriceUpdate`
exactly when `assetIds.includes(update.assetId)`; `some u` means the
user handler is invoked with `u`, `none` that it is not invoked. -/
def priceHandler (assetIds : List String) (u : PriceUpdate) :
    Option PriceUpdate :=
  if u.assetId ∈ assetIds then some u else none

/-- The `bookHandler` closure of `subscribeMarkets`. -/
def bookHandler (assetIds : List String) (u : BookUpdate) :
    Option BookUpdate :=
  if u.assetId ∈ assetIds then some u else none

/-- The `tradeHandler` closure of `subscribeMarkets`. -/
def tradeHandler (assetIds : List String) (t : LastTrade) :
    Option LastTrade :=
  if t.assetId ∈ assetIds then some t else none

/-- The `errorHandler` closure of `subscribeMarkets`: always forwards the
error to `onError`, with no asset-id filter. -/
def errorHandler (error : String) : Option String :=
  some error

/-! ### Pairing mode (`subscribeMarket`) -/

/-- The closure state of `subscribeMarket`: the latest YES-side and
NO-side price updates seen so far. -/
structure PairState where
  lastYesUpdate : Option PriceUpdate
  lastNoUpdate : Option PriceUpdate
deriving DecidableEq, Repr

/-- The combined `{yes, no, spread}` update handed to `onPairUpdate`. -/
structure PairUpdate where
  yes : PriceUpdate
  no : PriceUpdate
  spread : ℚ
deriving DecidableEq, Repr

/-- Source `checkPairUpdate()`: emit a combined update exactly when both sides
have a latest price, with `spread` the sum of the two latest prices. -/
def checkPairUpdate (st : PairState) : Option PairUpdate :=
  match st.lastYesUpdate, st.lastNoUpdate with
  | some y, some n => some { yes := y, no := n, spread := y.price + n.price }
  | _, _ => none

/-- One incoming price frame of the paired subscription: the
`subscribeMarkets` filter over `[yesTokenId, noTokenId]` followed by
`subscribeMarket`'s `onPriceUpdate` wrapper (record the side, then
`checkPairUpdate()`).  Returns the new closure state and the pair update
emitted to `onPairUpdate`, if any. -/
def pairStep (yesTokenId noTokenId : String) (st : PairState)
    (u : PriceUpdate) : PairState × Option PairUpdate :=
  if u.assetId ∈ ([yesTokenId, noTokenId] : List String) then
    let st' :=
      if u.assetId = yesTokenId then { st with lastYesUpdate := some u }
      else if u.assetId = noTokenId then { st with lastNoUpdate := some u }
      else st
    (st', checkPairUpdate st')
  else (st, none)

/-- Feed a sequence of price frames through the paired subscription,
collecting every emitted pair update. -/
def pairRun (yesTokenId noTokenId : String) (st : PairState) :
    List PriceUpdate → PairState × List PairUpdate
  | [] => (st, [])
  | u :: us =>
      let step := pairStep yesTokenId noTokenId st u
      let rest := pairRun yesTokenId noTokenId step.1 us
      (rest.1, step.2.toList ++ rest.2)

/-- The fresh closure state of a new `subscribeMarket` call. -/
def pairInit : PairState :=
  { lastYesUpdate := none, lastNoUpdate := none }

/-- A sample YES-side price frame. -/
def sampleYes : PriceUpdate :=
  { assetId := "yes1", price := 2/5 }

/-- A sample NO-side price frame. -/
def sampleNo : PriceUpdate :=
  { assetId := "no1", price := 1/2 }

end Realtime

namespace Wallet

/-- The fields of a data-API `Position` used by the wallet analytics;
optional numeric fields model the `p.field || 0` defaulting. -/
structure Position where
  percentPnl : Option ℚ
  cashPnl : Option ℚ
  realizedPnl : Option ℚ
deriving DecidableEq, Repr

/-- The fields of a data-API `Activity` used by the wallet analytics;
`timestamp` is in milliseconds. -/
structure Activity where
  activityType : String
  timestamp : ℚ
deriving DecidableEq, Repr

/-- Source `calculateVariance(values)`: population variance, `0` on the empty
list. -/
def calculateVariance (values : List ℚ) : ℚ :=
  if values.length = 0 then 0
  else
    let mean := values.sum / values.length
    (values.map fun v => (v - mean) ^ 2).sum / values.length

/-- The PnL component of `calculateSmartScore` (clamped to `[0, 40]`). -/
def pnlScore (positions : List Position) : ℚ :=
  let avgPnL :=
    if 0 < positions.length then
      (positions.map fun p => p.percentPnl.getD 0).sum / positions.length
    else 0
  min 40 (max 0 ((avgPnL + 50) / 100 * 40))

/-- The win-rate component of `calculateSmartScore` (`winRate * 30`). -/
def winRateScore (positions : List Position) : ℚ :=
  let winningPositions := (positions.filter fun p => 0 < p.cashPnl.getD 0).length
  let winRate : ℚ :=
    if 0 < positions.length then (winningPositions : ℚ) / positions.length
    else 0
  winRate * 30

/-- The consistency component of `calculateSmartScore`
(`max(0, 20 - variance / 10)`). -/
def consistencyScore (positions : List Position) : ℚ :=
  let pnlValues := positions.map fun p => p.percentPnl.getD 0
  max 0 (20 - calculateVariance pnlValues / 10)

/-- The activity component of `calculateSmartScore`
(`min(10, recentTrades / 5 * 10)`, counting activities of the last seven
days relative to `now`, in milliseconds). -/
def activityScore (activities : List Activity) (now : ℚ) : ℚ :=
  let recentTrades :=
    (activities.filter fun a => now - 7 * 24 * 60 * 60 * 1000 < a.timestamp).length
  min 10 ((recentTrades : ℚ) / 5 * 10)

/-- Source `calculateSmartScore(positions, activities)`: the rounded sum of the
four weighted components (`Math.round` rounds half toward positive
infinity, as does `round` on `ℚ`). -/
def calculateSmartScore (positions : List Position) (activities : List Activity)
    (now : ℚ) : ℤ :=
  round (pnlScore positions + winRateScore positions +
    consistencyScore positions + activityScore activities now)

/-- The analytics fields of the `WalletProfile` built by
`getWalletProfile` from the fetched positions and activities. -/
structure WalletProfile where
  totalPnL : ℚ
  realizedPnL : ℚ
  unrealizedPnL : ℚ
  avgPercentPnL : ℚ
  positionCount : Nat
  tradeCount : Nat
  smartScore : ℤ
deriving DecidableEq, Repr

/-- The pure core of `getWalletProfile(address)`: the profile computed
from the positions and activities the data API returned. -/
def mkWalletProfile (positions : List Position) (activities : List Activity)
    (now : ℚ) : WalletProfile :=
  let totalPnL := (positions.map fun p => p.cashPnl.getD 0).sum
  let realizedPnL := (positions.map fun p => p.realizedPnl.getD 0).sum
  { totalPnL := totalPnL
    realizedPnL := realizedPnL
    unrealizedPnL := totalPnL - realizedPnL
    avgPercentPnL :=
      if 0 < positions.length then
        (positions.map fun p => p.percentPnl.getD 0).sum / positions.length
      else 0
    positionCount := positions.length
    tradeCount := (activities.filter fun a => a.activityType = "TRADE").length
    smartScore := calculateSmartScore positions activities now }

end Wallet

/-! ## Theorems -/

open ChainMonitor Realtime Wallet

/-- Claim C9: `disconnect()` stops the polling timer, tears down the push
connection, releases both contract handles, and sets the mode and stats
to `disconnected`; it is idempotent — a second invocation leaves the
state exactly as the first left it. -/
theorem disconnect_idempotent_and_resets (s : MonitorState) :
    disconnect (disconnect s) = disconnect s ∧
    (disconnect s).pollingTimer = false ∧
    (disconnect s).wsProvider = false ∧
    (disconnect s).ctfContract = false ∧
    (disconnect s).negRiskContract = false ∧
    (disconnect s).currentMode = .disconnected ∧
    (disconnect s).stats.mode = .disconnected ∧
    (disconnect s).stats.connected = false :=
  ⟨rfl, rfl, rfl, rfl, rfl, rfl, rfl, rfl⟩

/-- Claim C3: if the push-mode connection attempt made during `connect()`
fails, `connect()` still returns normally (the failure is caught and
handled by `startPolling`), and afterwards `getMode()` reports polling
and `isConnected()` reports true. -/
theorem connect_wsFailure_degradesToPolling (cfg : Config) (now blockNum : Nat)
    (s : MonitorState) (h1 : cfg.wsEnabled = true) (h2 : s.isRunning = false)
    (h3 : s.pollingTimer = false) :
    getMode (connect cfg now blockNum false s) = .polling ∧
    isConnected (connect cfg now blockNum false s) = true := by
  simp [connect, getMode, isConnected, startPolling, h1, h2, h3]

/-- Witness for C3 at the constructor defaults and the fresh state. -/
theorem connect_wsFailure_degradesToPolling_witness :
    getMode (connect defaultConfig 0 100 false initialState) = .polling ∧
    isConnected (connect defaultConfig 0 100 false initialState) = true :=
  connect_wsFailure_degradesToPolling defaultConfig 0 100 initialState rfl rfl rfl

/-- Claim C5: the event pipeline drops an event exactly when a positive
minimum-transfer-value filter is configured and the event's amount,
compared as an arbitrary-precision integer, is strictly below it; with
the filter at `"1000"`, an event of amount `"500"` is never emitted to
any listener and one of amount `"1500"` is emitted. -/
theorem processEvent_minValue_filter :
    (∀ (cfg : Config) (now : Nat) (st : Stats) (e : TransferEvent),
      processEvent cfg now st e = none ↔
        0 < cfg.minTransferValue ∧ e.amount < cfg.minTransferValue) ∧
    (∀ (now : Nat) (st : Stats),
      processEvent { defaultConfig with minTransferValue := 1000 } now st
        { txHash := "0xaa", sender := "0xf1", receiver := "0xt1", tokenId := 1,
          amount := 500, blockNumber := 7, timestamp := 0, isBatch := false,
          operator := "0xop" } = none ∧
      (processEvent { defaultConfig with minTransferValue := 1000 } now st
        { txHash := "0xbb", sender := "0xf2", receiver := "0xt2", tokenId := 2,
          amount := 1500, blockNumber := 8, timestamp := 0, isBatch := false,
          operator := "0xop" }).isSome = true) := by
  constructor
  · intro cfg now st e
    by_cases h : 0 < cfg.minTransferValue ∧ e.amount < cfg.minTransferValue <;>
      simp [processEvent, h]
  · intro now st
    exact ⟨rfl, rfl⟩

/-- Counterexample to claim C2 as stated: after an explicit
`disconnect()` the monitor reports mode `disconnected` and not connected,
yet `getHistoricalTransfers` succeeds (the HTTP provider installed by
`connect()` is never released), rather than failing with an error. -/
theorem getHistoricalTransfers_after_disconnect_succeeds :
    isConnected (disconnect (connect defaultConfig 0 100 true initialState)) = false ∧
    getMode (disconnect (connect defaultConfig 0 100 true initialState)) = .disconnected ∧
    getHistoricalTransfers (disconnect (connect defaultConfig 0 100 true initialState))
      [] 5 10 = .ok [] :=
  ⟨rfl, rfl, rfl⟩

/-- Claim C2, amended: `getHistoricalTransfers` fails with a call-time
error exactly when the HTTP provider has never been initialized (i.e.
`connect()` has not run); `disconnect()` retains the HTTP provider, so
after a disconnect the call still returns results. -/
theorem getHistoricalTransfers_error_iff_noProvider :
    (∀ (s : MonitorState) (chain : Chain) (fromBlock toBlock : Nat),
      (∃ msg, getHistoricalTransfers s chain fromBlock toBlock = .error msg) ↔
        s.httpProvider = false) ∧
    (∀ s : MonitorState, (disconnect s).httpProvider = s.httpProvider) := by
  constructor
  · intro s chain fromBlock toBlock
    by_cases h : s.httpProvider <;> simp [getHistoricalTransfers, h]
  · intro s
    rfl

/-- Claim C7: a subscription over asset ids `{a, b}` never has its
price, book, or last-trade handlers invoked by a frame for an asset id
`c ∉ {a, b}`, while an error event reaches the subscription's error
handler unfiltered. -/
theorem subscription_filters_by_assetId (a b c : String) (u : PriceUpdate)
    (bu : BookUpdate) (t : LastTrade) (err : String)
    (hc : c ∉ ([a, b] : List String)) (hu : u.assetId = c)
    (hb : bu.assetId = c) (ht : t.assetId = c) :
    priceHandler [a, b] u = none ∧ bookHandler [a, b] bu = none ∧
    tradeHandler [a, b] t = none ∧ errorHandler err = some err := by
  refine ⟨?_, ?_, ?_, rfl⟩ <;>
    simp [priceHandler, bookHandler, tradeHandler, hu, hb, ht, hc]

/-- Witness for C7 at concrete asset ids. -/
theorem subscription_filters_by_assetId_witness :
    priceHandler ["a1", "b1"] { assetId := "c1", price := 1 } = none ∧
    bookHandler ["a1", "b1"] { assetId := "c1" } = none ∧
    tradeHandler ["a1", "b1"] { assetId := "c1" } = none ∧
    errorHandler "socket error" = some "socket error" :=
  subscription_filters_by_assetId "a1" "b1" "c1" _ _ _ "socket error"
    (by decide) rfl rfl rfl

/-- Helper: `startPolling` either leaves the mode unchanged (timer
already installed) or sets it to polling. -/
theorem startPolling_currentMode (s : MonitorState) :
    (startPolling s).currentMode = s.currentMode ∨
    (startPolling s).currentMode = .polling := by
  by_cases h : s.pollingTimer <;> simp [startPolling, h]

/-- Helper: a poll tick never changes the connection mode. -/
theorem pollNewBlocks_currentMode (cfg : Config) (chain : Chain)
    (now currentBlock : Nat) (s : MonitorState) :
    (pollNewBlocks cfg chain now currentBlock s).currentMode = s.currentMode := by
  unfold pollNewBlocks
  repeat' split
  all_goals rfl

/-- Helper: `handleDisconnect` either leaves the mode unchanged or falls
back to polling; it never sets the mode to `disconnected`. -/
theorem handleDisconnect_currentMode (cfg : Config) (s : MonitorState) :
    (handleDisconnect cfg s).currentMode = s.currentMode ∨
    (handleDisconnect cfg s).currentMode = .polling := by
  by_cases hr : s.isRunning
  · by_cases hw : s.wsProvider <;>
    by_cases hc : cfg.autoReconnect = true ∧
      s.reconnectAttempts < cfg.maxReconnectAttempts <;>
    by_cases hm : s.currentMode = Mode.websocket <;>
    by_cases ht : s.pollingTimer <;>
    simp [handleDisconnect, startPolling, hr, hw, hc, hm, ht]
  · simp [handleDisconnect, hr]

/-- Claim C4: with auto-reconnect on and the attempt budget exhausted, a
push-mode disconnect falls back to polling (mode polling, still
connected); moreover no internal transition (socket close, reconnect
attempt, poll tick) ever moves the monitor into the terminal
`disconnected` mode — that mode is reached only by the explicit
`disconnect()`. -/
theorem reconnect_exhaustion_falls_back_to_polling :
    (∀ (cfg : Config) (s : MonitorState),
      s.isRunning = true → cfg.autoReconnect = true →
      cfg.maxReconnectAttempts ≤ s.reconnectAttempts →
      s.currentMode = .websocket → s.pollingTimer = false →
      getMode (handleDisconnect cfg s) = .polling ∧
      isConnected (handleDisconnect cfg s) = true) ∧
    (∀ (cfg : Config) (chain : Chain) (now : Nat) (ev : InternalEvent)
      (s : MonitorState),
      s.currentMode ≠ .disconnected →
      (internalStep cfg chain now ev s).currentMode ≠ .disconnected) := by
  constructor
  · intro cfg s h1 h2 h3 h4 h5
    by_cases hw : s.wsProvider <;>
      simp [handleDisconnect, getMode, isConnected, startPolling, h1, h4, h5,
        hw, Nat.not_lt.mpr h3]
  · intro cfg chain now ev s hne
    cases ev with
    | wsClosed =>
        rcases handleDisconnect_currentMode cfg s with h | h <;>
          simp [internalStep, h, hne]
    | reconnectTimeout ok =>
        by_cases hr : s.isRunning
        · cases ok
          · rcases startPolling_currentMode s with h | h <;>
              simp [internalStep, hr, h, hne]
          · simp [internalStep, hr, connectWebSocketOk]
        · simp [internalStep, hr, hne]
    | pollTick currentBlock =>
        simp [internalStep, pollNewBlocks_currentMode, hne]

/-- Witness for C4: budget of 3 already used while in websocket mode
falls back to polling, and a socket-close step from polling mode does
not disconnect. -/
theorem reconnect_exhaustion_falls_back_to_polling_witness :
    getMode (handleDisconnect { defaultConfig with maxReconnectAttempts := 3 }
      { initialState with
          isRunning := true, currentMode := .websocket,
          wsProvider := true, reconnectAttempts := 3 }) = .polling ∧
    isConnected (handleDisconnect { defaultConfig with maxReconnectAttempts := 3 }
      { initialState with
          isRunning := true, currentMode := .websocket,
          wsProvider := true, reconnectAttempts := 3 }) = true ∧
    (internalStep { defaultConfig with maxReconnectAttempts := 3 } [] 0
      .wsClosed { initialState with
          isRunning := true,
          currentMode := .polling, pollingTimer := true }).currentMode ≠
      .disconnected := by
  refine ⟨?_, ?_, ?_⟩
  · exact (reconnect_exhaustion_falls_back_to_polling.1 _ _ rfl rfl
      (by decide) rfl rfl).1
  · exact (reconnect_exhaustion_falls_back_to_polling.1 _ _ rfl rfl
      (by decide) rfl rfl).2
  · exact reconnect_exhaustion_falls_back_to_polling.2 _ [] 0 .wsClosed _
      (by decide)

/-- Helper: a parsed transfer event carries its log's block number. -/
theorem parseTransferLog_blockNumber {log : Log} {b : Bool}
    {e : TransferEvent} (h : parseTransferLog log b = some e) :
    e.blockNumber = log.blockNumber := by
  cases hargs : log.args with
  | none => simp [parseTransferLog, hargs] at h
  | some args =>
      simp only [parseTransferLog, hargs, Option.some.injEq] at h
      subst h
      rfl

/-- Claim C6: on a connected monitor, `getHistoricalTransfers(fromBlock,
toBlock)` returns only events whose block number lies in the inclusive
range, sorted ascending by block number, each parsed from a
`TransferSingle` log of one of the two queried exchange contracts. -/
theorem getHistoricalTransfers_range_and_sorted (s : MonitorState)
    (chain : Chain) (fromBlock toBlock : Nat) (evs : List TransferEvent)
    (h : getHistoricalTransfers s chain fromBlock toBlock = .ok evs) :
    (∀ e ∈ evs, fromBlock ≤ e.blockNumber ∧ e.blockNumber ≤ toBlock) ∧
    List.Sorted blockLE evs ∧
    (∀ e ∈ evs, ∃ log ∈ chain,
      (log.address = CTF_EXCHANGE ∨ log.address = NEG_RISK_CTF_EXCHANGE) ∧
      parseTransferLog log false = some e) := by
  by_cases hp : s.httpProvider
  · rw [getHistoricalTransfers, if_neg (by simp [hp])] at h
    have hev : evs = sortByBlockNumber
        ((queryFilter CTF_EXCHANGE chain fromBlock toBlock).filterMap
            (parseTransferLog · false) ++
          (queryFilter NEG_RISK_CTF_EXCHANGE chain fromBlock toBlock).filterMap
            (parseTransferLog · false)) := by
      cases h
      rfl
    have hmem : ∀ e ∈ evs, ∃ log ∈ chain,
        (log.address = CTF_EXCHANGE ∨ log.address = NEG_RISK_CTF_EXCHANGE) ∧
        (fromBlock ≤ log.blockNumber ∧ log.blockNumber ≤ toBlock) ∧
        parseTransferLog log false = some e := by
      intro e he
      rw [hev, sortByBlockNumber,
        (List.perm_insertionSort blockLE _).mem_iff, List.mem_append] at he
      rcases he with he | he <;>
      · rw [List.mem_filterMap] at he
        obtain ⟨log, hlog, hparse⟩ := he
        rw [queryFilter, List.mem_filter] at hlog
        obtain ⟨hchain, hcond⟩ := hlog
        simp only [decide_eq_true_eq] at hcond
        exact ⟨log, hchain, by tauto, hcond.2, hparse⟩
    refine ⟨?_, ?_, ?_⟩
    · intro e he
      obtain ⟨log, _, _, hrange, hparse⟩ := hmem e he
      rw [parseTransferLog_blockNumber hparse]
      exact hrange
    · rw [hev, sortByBlockNumber]
      exact List.sorted_insertionSort blockLE _
    · intro e he
      obtain ⟨log, hchain, haddr, _, hparse⟩ := hmem e he
      exact ⟨log, hchain, haddr, hparse⟩
  · rw [getHistoricalTransfers, if_pos (by simp [hp])] at h
    cases h

/-- Witness for C6 on `sampleChain` over the inclusive range 5..10. -/
theorem getHistoricalTransfers_range_and_sorted_witness :
    (∀ e ∈ sampleEvents, 5 ≤ e.blockNumber ∧ e.blockNumber ≤ 10) ∧
    List.Sorted blockLE sampleEvents ∧
    (∀ e ∈ sampleEvents, ∃ log ∈ sampleChain,
      (log.address = CTF_EXCHANGE ∨ log.address = NEG_RISK_CTF_EXCHANGE) ∧
      parseTransferLog log false = some e) :=
  getHistoricalTransfers_range_and_sorted sampleConnectedState sampleChain
    5 10 sampleEvents (by rfl)

/-- Helper: one paired step preserves the side invariants (the stored
YES-side update has the YES token id, the NO-side update the NO token
id), and any pair update it emits has the right asset ids and a spread
equal to the sum of the two stored latest prices. -/
theorem pairStep_invariant (yesId noId : String) (st : PairState)
    (u : PriceUpdate)
    (hy : ∀ y, st.lastYesUpdate = some y → y.assetId = yesId)
    (hn : ∀ n, st.lastNoUpdate = some n → n.assetId = noId) :
    (∀ y, (pairStep yesId noId st u).1.lastYesUpdate = some y →
      y.assetId = yesId) ∧
    (∀ n, (pairStep yesId noId st u).1.lastNoUpdate = some n →
      n.assetId = noId) ∧
    (∀ p, (pairStep yesId noId st u).2 = some p →
      p.spread = p.yes.price + p.no.price ∧
      p.yes.assetId = yesId ∧ p.no.assetId = noId) := by
  by_cases hyes : u.assetId = yesId
  · have hmem : u.assetId ∈ ([yesId, noId] : List String) := by simp [hyes]
    have hstep : pairStep yesId noId st u =
        ({ st with lastYesUpdate := some u },
          checkPairUpdate { st with lastYesUpdate := some u }) := by
      simp only [pairStep, if_pos hmem, if_pos hyes]
    rw [hstep]
    refine ⟨?_, ?_, ?_⟩
    · intro y hy2
      cases hy2
      exact hyes
    · exact hn
    · intro p hp
      cases hno : st.lastNoUpdate with
      | none => simp [checkPairUpdate, hno] at hp
      | some n =>
          simp only [checkPairUpdate, hno, Option.some.injEq] at hp
          subst hp
          exact ⟨rfl, hyes, hn n hno⟩
  · by_cases hnoid : u.assetId = noId
    · have hmem : u.assetId ∈ ([yesId, noId] : List String) := by simp [hnoid]
      have hstep : pairStep yesId noId st u =
          ({ st with lastNoUpdate := some u },
            checkPairUpdate { st with lastNoUpdate := some u }) := by
        simp only [pairStep, if_pos hmem, if_neg hyes, if_pos hnoid]
      rw [hstep]
      refine ⟨?_, ?_, ?_⟩
      · exact hy
      · intro n hn2
        cases hn2
        exact hnoid
      · intro p hp
        cases hyes2 : st.lastYesUpdate with
        | none => simp [checkPairUpdate, hyes2] at hp
        | some y =>
            simp only [checkPairUpdate, hyes2, Option.some.injEq] at hp
            subst hp
            exact ⟨rfl, hy y hyes2, hnoid⟩
    · have hmem : u.assetId ∉ ([yesId, noId] : List String) := by
        simp [hyes, hnoid]
      have hstep : pairStep yesId noId st u = (st, none) := by
        simp only [pairStep, if_neg hmem]
      rw [hstep]
      exact ⟨hy, hn, fun p hp => by cases hp⟩

/-- Helper: one paired step only ever overwrites a side with the
matching incoming update (never clears it), and emits only when both
sides are populated. -/
theorem pairStep_sides (yesId noId : String) (st : PairState)
    (u : PriceUpdate) :
    ((pairStep yesId noId st u).1.lastYesUpdate = st.lastYesUpdate ∨
      ((pairStep yesId noId st u).1.lastYesUpdate = some u ∧
        u.assetId = yesId)) ∧
    ((pairStep yesId noId st u).1.lastNoUpdate = st.lastNoUpdate ∨
      ((pairStep yesId noId st u).1.lastNoUpdate = some u ∧
        u.assetId = noId)) ∧
    (∀ p, (pairStep yesId noId st u).2 = some p →
      (pairStep yesId noId st u).1.lastYesUpdate ≠ none ∧
      (pairStep yesId noId st u).1.lastNoUpdate ≠ none) := by
  by_cases hyes : u.assetId = yesId
  · have hmem : u.assetId ∈ ([yesId, noId] : List String) := by simp [hyes]
    have hstep : pairStep yesId noId st u =
        ({ st with lastYesUpdate := some u },
          checkPairUpdate { st with lastYesUpdate := some u }) := by
      simp only [pairStep, if_pos hmem, if_pos hyes]
    rw [hstep]
    refine ⟨Or.inr ⟨rfl, hyes⟩, Or.inl rfl, ?_⟩
    intro p hp
    cases hno : st.lastNoUpdate with
    | none => simp [checkPairUpdate, hno] at hp
    | some n => simp [hno]
  · by_cases hnoid : u.assetId = noId
    · have hmem : u.assetId ∈ ([yesId, noId] : List String) := by simp [hnoid]
      have hstep : pairStep yesId noId st u =
          ({ st with lastNoUpdate := some u },
            checkPairUpdate { st with lastNoUpdate := some u }) := by
        simp only [pairStep, if_pos hmem, if_neg hyes, if_pos hnoid]
      rw [hstep]
      refine ⟨Or.inl rfl, Or.inr ⟨rfl, hnoid⟩, ?_⟩
      intro p hp
      cases hyes2 : st.lastYesUpdate with
      | none => simp [checkPairUpdate, hyes2] at hp
      | some y => simp [hyes2]
    · have hmem : u.assetId ∉ ([yesId, noId] : List String) := by
        simp [hyes, hnoid]
      have hstep : pairStep yesId noId st u = (st, none) := by
        simp only [pairStep, if_neg hmem]
      rw [hstep]
      exact ⟨Or.inl rfl, Or.inl rfl, fun p hp => by cases hp⟩

/-- Helper: over a whole run, a populated side at the end traces back
either to the starting state or to an incoming update with the matching
token id; and a side populated at the start stays populated. -/
theorem pairRun_sides (yesId noId : String) :
    ∀ (us : List PriceUpdate) (st : PairState),
      ((pairRun yesId noId st us).1.lastYesUpdate ≠ none →
        st.lastYesUpdate ≠ none ∨ ∃ u ∈ us, u.assetId = yesId) ∧
      ((pairRun yesId noId st us).1.lastNoUpdate ≠ none →
        st.lastNoUpdate ≠ none ∨ ∃ u ∈ us, u.assetId = noId) ∧
      (st.lastYesUpdate ≠ none →
        (pairRun yesId noId st us).1.lastYesUpdate ≠ none) ∧
      (st.lastNoUpdate ≠ none →
        (pairRun yesId noId st us).1.lastNoUpdate ≠ none) := by
  intro us
  induction us with
  | nil =>
      intro st
      exact ⟨fun h => Or.inl h, fun h => Or.inl h, fun h => h, fun h => h⟩
  | cons u us ih =>
      intro st
      obtain ⟨hsy, hsn, _⟩ := pairStep_sides yesId noId st u
      obtain ⟨iy, inn, my, mn⟩ := ih (pairStep yesId noId st u).1
      simp only [pairRun]
      refine ⟨?_, ?_, ?_, ?_⟩
      · intro h
        rcases iy h with h2 | ⟨v, hv, hvid⟩
        · rcases hsy with h3 | ⟨_, h4⟩
          · exact Or.inl (h3 ▸ h2)
          · exact Or.inr ⟨u, by simp, h4⟩
        · exact Or.inr ⟨v, by simp [hv], hvid⟩
      · intro h
        rcases inn h with h2 | ⟨v, hv, hvid⟩
        · rcases hsn with h3 | ⟨_, h4⟩
          · exact Or.inl (h3 ▸ h2)
          · exact Or.inr ⟨u, by simp, h4⟩
        · exact Or.inr ⟨v, by simp [hv], hvid⟩
      · intro h
        refine my ?_
        rcases hsy with h3 | ⟨h4, _⟩
        · rw [h3]; exact h
        · rw [h4]; simp
      · intro h
        refine mn ?_
        rcases hsn with h3 | ⟨h4, _⟩
        · rw [h3]; exact h
        · rw [h4]; simp

/-- Helper: every pair update a run emits has the YES/NO components with
the matching token ids and a spread equal to their price sum. -/
theorem pairRun_emitted_shape (yesId noId : String) :
    ∀ (us : List PriceUpdate) (st : PairState),
      (∀ y, st.lastYesUpdate = some y → y.assetId = yesId) →
      (∀ n, st.lastNoUpdate = some n → n.assetId = noId) →
      ∀ p ∈ (pairRun yesId noId st us).2,
        p.spread = p.yes.price + p.no.price ∧
        p.yes.assetId = yesId ∧ p.no.assetId = noId := by
  intro us
  induction us with
  | nil =>
      intro st _ _ p hp
      simp [pairRun] at hp
  | cons u us ih =>
      intro st hy hn p hp
      obtain ⟨hy2, hn2, hemit⟩ := pairStep_invariant yesId noId st u hy hn
      simp only [pairRun, List.mem_append] at hp
      rcases hp with hp | hp
      · exact hemit p (by simpa using hp)
      · exact ih (pairStep yesId noId st u).1 hy2 hn2 p hp

/-- Helper: if a run emitted anything, both sides are populated in its
final state. -/
theorem pairRun_emitted_final (yesId noId : String) :
    ∀ (us : List PriceUpdate) (st : PairState),
      (pairRun yesId noId st us).2 ≠ [] →
      (pairRun yesId noId st us).1.lastYesUpdate ≠ none ∧
      (pairRun yesId noId st us).1.lastNoUpdate ≠ none := by
  intro us
  induction us with
  | nil =>
      intro st h
      simp [pairRun] at h
  | cons u us ih =>
      intro st h
      simp only [pairRun] at h ⊢
      by_cases hr : (pairRun yesId noId (pairStep yesId noId st u).1 us).2 = []
      · rw [hr, List.append_nil] at h
        obtain ⟨_, _, hemit⟩ := pairStep_sides yesId noId st u
        cases hstep2 : (pairStep yesId noId st u).2 with
        | none => rw [hstep2] at h; simp at h
        | some p =>
            obtain ⟨h1, h2⟩ := hemit p hstep2
            obtain ⟨_, _, my, mn⟩ :=
              pairRun_sides yesId noId us (pairStep yesId noId st u).1
            exact ⟨my h1, mn h2⟩
      · exact ih (pairStep yesId noId st u).1 hr

/-- Claim C8: in pairing mode over a YES and a NO token id, a combined
`{yes, no, spread}` update is emitted only after both sides have received
at least one price update, and its spread equals the sum of the two
latest prices (the stored YES-side and NO-side latest updates). -/
theorem subscribeMarket_pair_semantics (yesId noId : String)
    (us : List PriceUpdate) :
    (∀ p ∈ (pairRun yesId noId pairInit us).2,
      p.spread = p.yes.price + p.no.price ∧
      p.yes.assetId = yesId ∧ p.no.assetId = noId) ∧
    ((pairRun yesId noId pairInit us).2 ≠ [] →
      (∃ u ∈ us, u.assetId = yesId) ∧ (∃ u ∈ us, u.assetId = noId)) := by
  constructor
  · exact pairRun_emitted_shape yesId noId us pairInit
      (by intro y hy2; simp [pairInit] at hy2)
      (by intro n hn2; simp [pairInit] at hn2)
  · intro h
    obtain ⟨h1, h2⟩ := pairRun_emitted_final yesId noId us pairInit h
    obtain ⟨iy, inn, _, _⟩ := pairRun_sides yesId noId us pairInit
    rcases iy h1 with h3 | h3
    · simp [pairInit] at h3
    rcases inn h2 with h4 | h4
    · simp [pairInit] at h4
    exact ⟨h3, h4⟩

/-- Witness for C8: feeding one YES frame then one NO frame emits the
pair update with spread `2/5 + 1/2`, and both sides indeed occur in the
input. -/
theorem subscribeMarket_pair_semantics_witness :
    (({ yes := sampleYes, no := sampleNo,
        spread := sampleYes.price + sampleNo.price } : PairUpdate).spread =
          sampleYes.price + sampleNo.price ∧
      ({ yes := sampleYes, no := sampleNo,
         spread := sampleYes.price + sampleNo.price } : PairUpdate).yes.assetId =
          "yes1" ∧
      ({ yes := sampleYes, no := sampleNo,
         spread := sampleYes.price + sampleNo.price } : PairUpdate).no.assetId =
          "no1") ∧
    ((∃ u ∈ [sampleYes, sampleNo], u.assetId = "yes1") ∧
      (∃ u ∈ [sampleYes, sampleNo], u.assetId = "no1")) := by
  constructor
  · exact (subscribeMarket_pair_semantics "yes1" "no1" [sampleYes, sampleNo]).1
      _ (by simp [pairRun, pairStep, checkPairUpdate, pairInit, sampleYes, sampleNo])
  · exact (subscribeMarket_pair_semantics "yes1" "no1" [sampleYes, sampleNo]).2
      (by simp [pairRun, pairStep, checkPairUpdate, pairInit, sampleYes, sampleNo])

/-- Helper: `calculateVariance` is nonnegative (a mean of squares). -/
theorem calculateVariance_nonneg (values : List ℚ) :
    0 ≤ calculateVariance values := by
  unfold calculateVariance
  split
  · exact le_refl 0
  · apply div_nonneg
    · apply List.sum_nonneg
      intro x hx
      rw [List.mem_map] at hx
      obtain ⟨v, _, rfl⟩ := hx
      positivity
    · positivity

/-- Claim C10: each smart-score component is bounded in its band — PnL
in `[0, 40]`, win rate in `[0, 30]`, consistency in `[0, 20]`, activity
in `[0, 10]` — so `calculateSmartScore` is an integer in `[0, 100]` for
every list of positions and activities, and it is exactly the
`smartScore` field of the wallet profile `getWalletProfile` builds. -/
theorem calculateSmartScore_range (positions : List Position)
    (activities : List Activity) (now : ℚ) :
    (0 ≤ pnlScore positions ∧ pnlScore positions ≤ 40) ∧
    (0 ≤ winRateScore positions ∧ winRateScore positions ≤ 30) ∧
    (0 ≤ consistencyScore positions ∧ consistencyScore positions ≤ 20) ∧
    (0 ≤ activityScore activities now ∧ activityScore activities now ≤ 10) ∧
    0 ≤ calculateSmartScore positions activities now ∧
    calculateSmartScore positions activities now ≤ 100 ∧
    (mkWalletProfile positions activities now).smartScore =
      calculateSmartScore positions activities now := by
  have hp : 0 ≤ pnlScore positions ∧ pnlScore positions ≤ 40 := by
    unfold pnlScore
    exact ⟨le_min (by norm_num) (le_max_left 0 _), min_le_left _ _⟩
  have hw : 0 ≤ winRateScore positions ∧ winRateScore positions ≤ 30 := by
    unfold winRateScore
    by_cases h : 0 < positions.length
    · simp only [if_pos h]
      constructor
      · positivity
      · have hlen : (0 : ℚ) < positions.length := by exact_mod_cast h
        have hle : ((positions.filter fun p =>
            0 < p.cashPnl.getD 0).length : ℚ) / positions.length ≤ 1 := by
          apply div_le_one_of_le₀
          · exact_mod_cast List.length_filter_le _ _
          · positivity
        linarith
    · simp only [if_neg h]
      norm_num
  have hc : 0 ≤ consistencyScore positions ∧ consistencyScore positions ≤ 20 := by
    unfold consistencyScore
    refine ⟨le_max_left 0 _, max_le (by norm_num) ?_⟩
    have := calculateVariance_nonneg (positions.map fun p => p.percentPnl.getD 0)
    linarith
  have ha : 0 ≤ activityScore activities now ∧
      activityScore activities now ≤ 10 := by
    unfold activityScore
    refine ⟨le_min (by norm_num) (by positivity), min_le_left _ _⟩
  refine ⟨hp, hw, hc, ha, ?_, ?_, rfl⟩
  · unfold calculateSmartScore
    rw [round_eq]
    refine Int.le_floor.mpr ?_
    push_cast
    obtain ⟨hp1, _⟩ := hp
    obtain ⟨hw1, _⟩ := hw
    obtain ⟨hc1, _⟩ := hc
    obtain ⟨ha1, _⟩ := ha
    linarith
  · unfold calculateSmartScore
    rw [round_eq]
    have hlt : ⌊pnlScore positions + winRateScore positions +
        consistencyScore positions + activityScore activities now + 1/2⌋ <
        (101 : ℤ) := by
      refine Int.floor_lt.mpr ?_
      push_cast
      obtain ⟨_, hp2⟩ := hp
      obtain ⟨_, hw2⟩ := hw
      obtain ⟨_, hc2⟩ := hc
      obtain ⟨_, ha2⟩ := ha
      linarith
    omega

/-- Helper: zipping against an appended right list splits at the left
list's remainder. -/
theorem zip_append_right_drop {α β : Type} :
    ∀ (l₂ : List β) (l₁ : List α) (l₃ : List β),
      l₁.zip (l₂ ++ l₃) = l₁.zip l₂ ++ (l₁.drop l₂.length).zip l₃ := by
  intro l₂
  induction l₂ with
  | nil => intro l₁ l₃; simp
  | cons b bs ih =>
      intro l₁ l₃
      cases l₁ with
      | nil => simp
      | cons a as => simp [ih]

/-- Helper: zipping an appended left list splits at the right list's
remainder. -/
theorem zip_append_left_drop {α β : Type} :
    ∀ (l₁ : List α) (l₃ : List α) (l₂ : List β),
      (l₁ ++ l₃).zip l₂ = l₁.zip l₂ ++ l₃.zip (l₂.drop l₁.length) := by
  intro l₁
  induction l₁ with
  | nil => intro l₃ l₂; simp
  | cons a as ih =>
      intro l₃ l₂
      cases l₂ with
      | nil => simp
      | cons b bs => simp [ih]

/-- Helper: an arriving event preserves the stream invariant — the
delivery log is the zip of the requests seen so far with the arrivals
seen so far, and the queue and parked list are the unmatched suffixes. -/
theorem streamStep_arrive_inv (st : ChainMonitor.StreamState)
    (reqs : List Nat) (arrs : List ChainMonitor.TransferEvent)
    (e : ChainMonitor.TransferEvent)
    (hdel : st.deliveries = reqs.zip arrs)
    (hpark : st.parked = reqs.drop (reqs.zip arrs).length)
    (hq : st.eventQueue = arrs.drop (reqs.zip arrs).length) :
    (ChainMonitor.streamStep st (.arrive e)).deliveries =
      reqs.zip (arrs ++ [e]) ∧
    (ChainMonitor.streamStep st (.arrive e)).parked =
      reqs.drop (reqs.zip (arrs ++ [e])).length ∧
    (ChainMonitor.streamStep st (.arrive e)).eventQueue =
      (arrs ++ [e]).drop (reqs.zip (arrs ++ [e])).length := by
  have hk : (reqs.zip arrs).length = min reqs.length arrs.length :=
    List.length_zip _ _
  cases hpk : st.parked with
  | nil =>
      have hle : reqs.length ≤ (reqs.zip arrs).length :=
        List.drop_eq_nil_iff.mp (hpark.symm.trans hpk)
      have hra : reqs.length ≤ arrs.length := by omega
      have hz : reqs.zip (arrs ++ [e]) = reqs.zip arrs := by
        rw [zip_append_right_drop, List.drop_eq_nil_iff.mpr hra]
        simp
      have hka : (reqs.zip arrs).length ≤ arrs.length := by omega
      refine ⟨?_, ?_, ?_⟩ <;> simp only [ChainMonitor.streamStep, hpk, hz]
      · exact hdel
      · exact hpk ▸ hpark
      · rw [List.drop_append_eq_append_drop,
          Nat.sub_eq_zero_of_le hka, hq]
        simp
  | cons r rs =>
      have hdrop : reqs.drop (reqs.zip arrs).length = r :: rs :=
        hpark.symm.trans hpk
      have hklt : (reqs.zip arrs).length < reqs.length := by
        by_contra hge
        push_neg at hge
        rw [List.drop_eq_nil_iff.mpr hge] at hdrop
        cases hdrop
      have hka : (reqs.zip arrs).length = arrs.length := by omega
      have hz : reqs.zip (arrs ++ [e]) = reqs.zip arrs ++ [(r, e)] := by
        rw [zip_append_right_drop, ← hka, hdrop]
        simp
      have hlen1 : (reqs.zip (arrs ++ [e])).length =
          (reqs.zip arrs).length + 1 := by
        rw [hz]
        simp
      have hlen2 : (reqs.zip arrs ++ [(r, e)]).length =
          (reqs.zip arrs).length + 1 := by simp
      refine ⟨?_, ?_, ?_⟩ <;> simp only [ChainMonitor.streamStep, hpk, hz, hlen2]
      · rw [hdel]
      · have hrs : reqs.drop ((reqs.zip arrs).length + 1) = rs := by
          rw [← List.drop_drop, hdrop]
          simp
        rw [hrs]
      · have hqnil : st.eventQueue = [] := by
          rw [hq, hka, List.drop_length]
        have hnil2 : (arrs ++ [e]).drop ((reqs.zip arrs).length + 1) = [] := by
          refine List.drop_eq_nil_iff.mpr ?_
          simp [hka]
        rw [hnil2, hqnil]

/-- Helper: a reader request preserves the stream invariant. -/
theorem streamStep_request_inv (st : ChainMonitor.StreamState)
    (reqs : List Nat) (arrs : List ChainMonitor.TransferEvent) (r : Nat)
    (hdel : st.deliveries = reqs.zip arrs)
    (hpark : st.parked = reqs.drop (reqs.zip arrs).length)
    (hq : st.eventQueue = arrs.drop (reqs.zip arrs).length) :
    (ChainMonitor.streamStep st (.request r)).deliveries =
      (reqs ++ [r]).zip arrs ∧
    (ChainMonitor.streamStep st (.request r)).parked =
      (reqs ++ [r]).drop ((reqs ++ [r]).zip arrs).length ∧
    (ChainMonitor.streamStep st (.request r)).eventQueue =
      arrs.drop ((reqs ++ [r]).zip arrs).length := by
  have hk : (reqs.zip arrs).length = min reqs.length arrs.length :=
    List.length_zip _ _
  cases hqe : st.eventQueue with
  | nil =>
      have hle : arrs.length ≤ (reqs.zip arrs).length :=
        List.drop_eq_nil_iff.mp (hq.symm.trans hqe)
      have hra : arrs.length ≤ reqs.length := by omega
      have hz : (reqs ++ [r]).zip arrs = reqs.zip arrs := by
        rw [zip_append_left_drop, List.drop_eq_nil_iff.mpr hra]
        simp
      have hkr : (reqs.zip arrs).length ≤ reqs.length := by omega
      refine ⟨?_, ?_, ?_⟩ <;> simp only [ChainMonitor.streamStep, hqe, hz]
      · exact hdel
      · rw [List.drop_append_eq_append_drop,
          Nat.sub_eq_zero_of_le hkr, hpark]
        simp
      · exact hqe ▸ hq
  | cons e es =>
      have hdrop : arrs.drop (reqs.zip arrs).length = e :: es :=
        hq.symm.trans hqe
      have hklt : (reqs.zip arrs).length < arrs.length := by
        by_contra hge
        push_neg at hge
        rw [List.drop_eq_nil_iff.mpr hge] at hdrop
        cases hdrop
      have hkr : (reqs.zip arrs).length = reqs.length := by omega
      have hz : (reqs ++ [r]).zip arrs = reqs.zip arrs ++ [(r, e)] := by
        rw [zip_append_left_drop, ← hkr, hdrop]
        simp
      have hlen2 : (reqs.zip arrs ++ [(r, e)]).length =
          (reqs.zip arrs).length + 1 := by simp
      refine ⟨?_, ?_, ?_⟩ <;> simp only [ChainMonitor.streamStep, hqe, hz, hlen2]
      · rw [hdel]
      · have hpnil : st.parked = [] := by
          rw [hpark, hkr, List.drop_length]
        have hnil2 : (reqs ++ [r]).drop ((reqs.zip arrs).length + 1) = [] := by
          refine List.drop_eq_nil_iff.mpr ?_
          simp [hkr]
        rw [hnil2, hpnil]
      · have hes : arrs.drop ((reqs.zip arrs).length + 1) = es := by
          rw [← List.drop_drop, hdrop]
          simp
        rw [hes]

/-- Helper: the stream invariant holds along any interleaving run. -/
theorem streamRun_foldl_inv :
    ∀ (acts : List ChainMonitor.StreamAction) (st : ChainMonitor.StreamState)
      (reqs : List Nat) (arrs : List ChainMonitor.TransferEvent),
      st.deliveries = reqs.zip arrs →
      st.parked = reqs.drop (reqs.zip arrs).length →
      st.eventQueue = arrs.drop (reqs.zip arrs).length →
      (acts.foldl ChainMonitor.streamStep st).deliveries =
        (reqs ++ ChainMonitor.streamRequests acts).zip
          (arrs ++ ChainMonitor.streamArrivals acts) ∧
      (acts.foldl ChainMonitor.streamStep st).parked =
        (reqs ++ ChainMonitor.streamRequests acts).drop
          ((reqs ++ ChainMonitor.streamRequests acts).zip
            (arrs ++ ChainMonitor.streamArrivals acts)).length ∧
      (acts.foldl ChainMonitor.streamStep st).eventQueue =
        (arrs ++ ChainMonitor.streamArrivals acts).drop
          ((reqs ++ ChainMonitor.streamRequests acts).zip
            (arrs ++ ChainMonitor.streamArrivals acts)).length := by
  intro acts
  induction acts with
  | nil =>
      intro st reqs arrs h1 h2 h3
      simp only [List.foldl_nil, ChainMonitor.streamRequests,
        ChainMonitor.streamArrivals, List.append_nil]
      exact ⟨h1, h2, h3⟩
  | cons act acts ih =>
      intro st reqs arrs h1 h2 h3
      cases act with
      | arrive e =>
          obtain ⟨g1, g2, g3⟩ := streamStep_arrive_inv st reqs arrs e h1 h2 h3
          have hrec := ih (ChainMonitor.streamStep st (.arrive e))
            reqs (arrs ++ [e]) g1 g2 g3
          simpa [ChainMonitor.streamArrivals, ChainMonitor.streamRequests]
            using hrec
      | request r =>
          obtain ⟨g1, g2, g3⟩ := streamStep_request_inv st reqs arrs r h1 h2 h3
          have hrec := ih (ChainMonitor.streamStep st (.request r))
            (reqs ++ [r]) arrs g1 g2 g3
          simpa [ChainMonitor.streamArrivals, ChainMonitor.streamRequests]
            using hrec

/-- Claim C1: for any interleaving of event arrivals and reader
requests on the pull-based stream of `subscribeAllTransfers()`, the
delivery log equals the request sequence zipped with the arrival
sequence: the i-th reader request receives exactly the i-th arriving
event.  Hence every event is delivered to exactly one reader (no
duplication), deliveries follow arrival (FIFO) order, and no event is
lost — the undelivered events are exactly the queued suffix of the
arrivals, and the unserved readers the parked suffix of the requests. -/
theorem subscribeAllTransfers_fifo_exactly_once
    (acts : List ChainMonitor.StreamAction) :
    (ChainMonitor.streamRun acts).deliveries =
      (ChainMonitor.streamRequests acts).zip
        (ChainMonitor.streamArrivals acts) ∧
    (ChainMonitor.streamRun acts).eventQueue =
      (ChainMonitor.streamArrivals acts).drop
        ((ChainMonitor.streamRequests acts).zip
          (ChainMonitor.streamArrivals acts)).length ∧
    (ChainMonitor.streamRun acts).parked =
      (ChainMonitor.streamRequests acts).drop
        ((ChainMonitor.streamRequests acts).zip
          (ChainMonitor.streamArrivals acts)).length := by
  obtain ⟨h1, h2, h3⟩ :=
    streamRun_foldl_inv acts ChainMonitor.streamInit [] [] rfl rfl rfl
  refine ⟨by simpa using h1, by simpa using h3, by simpa using h2⟩
